import Mathlib

/-!
Shallow embedding of the `dbmeter` repository (src/jack.rs, src/meters.rs).

Modelling conventions:
- `f32` samples are modelled by `FSample`: either a real number or NaN.
  The NaN case matters only where the code's floating-point operations give
  NaN a special meaning (Rust `f32::max` returns the non-NaN operand); plain
  arithmetic paths (the VU meter fold) are modelled on real inputs.
- Atomics are modelled by plain state fields with explicit state passing;
  each JACK callback is a function from state to state plus the `Control`
  value returned to the host.  The CAS retry loop of `VUMeter::integrate`
  is modelled with an explicit interference schedule (one entry per failed
  compare-and-swap).
- `panic::catch_unwind` is modelled by `BodyOutcome`: a callback body either
  returns a `Control` or panicked.  `callback_guard` additionally reports
  how many times the wrapped body was executed (0 or 1).
- `Decibel` readouts (`20.0 * x.log10()`) are modelled in `EReal`, with the
  float convention `log10 0 = -inf` mapped to `⊥`; the code only ever takes
  the logarithm of nonnegative stored meter values.
-/

namespace DBMeter

/-- Control signal returned by JACK callbacks (`jack::Control`). -/
inductive Control
  | Continue
  | Quit
deriving DecidableEq

/-- Outcome of running a callback body under `panic::catch_unwind`:
either it returned a `Control`, or it panicked. -/
inductive BodyOutcome
  | ret (c : Control)
  | panicked
deriving DecidableEq

/-- Model of an `f32` audio sample: a real number or NaN. -/
inductive FSample
  | nan
  | val (x : ℝ)

/-- Truth that a sample is an ordinary (non-NaN) value. -/
def FSample.isVal : FSample → Bool
  | .nan => false
  | .val _ => true

/-- State of `SamplePeakMeter` (src/meters.rs): the atomic `peak_sample`.
The stored value starts at `0.0` and the code only ever installs batch
maxima computed from a fold that starts at `0.0`, so it is never NaN and is
modelled as a real number. -/
structure SamplePeakMeter where
  peak_sample : ℝ

/-- State of `VUMeter` (src/meters.rs): the atomic `vu_sample` and the
atomic `vu_weight`. -/
structure VUMeter where
  vu_sample : ℝ
  vu_weight : ℝ

/-- Aggregate shared state of the system: the fields of `JackState`
(src/jack.rs: `alive`, `next_time`; the JACK input port handle carries no
model-relevant state) together with the two meters of src/meters.rs that
the spec's data flow feeds from the audio bridge. -/
structure SystemState where
  alive : Bool
  next_time : ℕ
  peak : SamplePeakMeter
  vu : VUMeter

/-- Data a `process` callback receives from its `ProcessScope`: the cycle's
input samples (via `Port::as_slice`) and the cycle-end JACK timestamp
(`cycle_times().next_usecs`, in microseconds). -/
structure ProcessScope where
  samples : List FSample
  next_usecs : ℕ

/-- Embedding of `JackHandler::is_alive`: relaxed load of the alive flag. -/
def is_alive (s : SystemState) : Bool :=
  s.alive

/-- Embedding of `JackHandler::mark_dead`: relaxed store of `false`. -/
def mark_dead (s : SystemState) : SystemState :=
  { s with alive := false }

/-- Embedding of `JackHandler::callback_guard` (src/jack.rs lines 178-188).
The wrapped callback is a state transformer that also reports whether it
returned normally or panicked; on a panic the state component carries the
mutations performed before the panic (`catch_unwind` does not roll them
back).  The guard returns the new state, the `Control` handed back to JACK,
and the number of times the body was executed.  The guard itself always
returns (panics never propagate past it). -/
def callback_guard (s : SystemState)
    (body : SystemState → BodyOutcome × SystemState) :
    SystemState × Control × ℕ :=
  if is_alive s = false then (s, Control.Quit, 0)
  else
    let r := body s
    let output : Control :=
      match r.1 with
      | .ret c => c
      | .panicked => Control.Quit
    (if output = Control.Quit then mark_dead r.2 else r.2, output, 1)

/-- Embedding of `JackHandler::update_time`: release store of the cycle-end
timestamp `next_usecs` into `next_time`. -/
def update_time (s : SystemState) (scope : ProcessScope) : SystemState :=
  { s with next_time := scope.next_usecs }

/-- Embedding of `JackHandler::process` (src/jack.rs lines 193-205), run
through `callback_guard`.  The body fetches the input slice, drops it
(the code's `std::mem::drop(input)` under a FIXME) without feeding any
meter, then stores the cycle-end time and returns `Continue`. -/
def process (s : SystemState) (scope : ProcessScope) :
    SystemState × Control × ℕ :=
  callback_guard s (fun s0 =>
    (BodyOutcome.ret Control.Continue, update_time s0 scope))

/-- The callbacks `JackHandler` receives from JACK (src/jack.rs lines
191-291), as events over the shared state. -/
inductive JackEvent
  | process (scope : ProcessScope)
  | thread_init
  | shutdown
  | freewheel (enabled : Bool)
  | buffer_size (size : ℕ)
  | sample_rate (srate : ℕ)
  | xrun

/-- One callback delivery.  Bodies follow src/jack.rs: `thread_init`,
`freewheel` and `xrun` only print and return `Continue`; `shutdown` prints
and returns `Quit`; `buffer_size` and `sample_rate` print and then hit
`unimplemented!()`, i.e. panic without touching shared state.  Every hook
is routed through `callback_guard`. -/
def run_event (s : SystemState) : JackEvent → SystemState × Control × ℕ
  | .process scope => process s scope
  | .thread_init => callback_guard s (fun s0 => (BodyOutcome.ret Control.Continue, s0))
  | .shutdown => callback_guard s (fun s0 => (BodyOutcome.ret Control.Quit, s0))
  | .freewheel _ => callback_guard s (fun s0 => (BodyOutcome.ret Control.Continue, s0))
  | .buffer_size _ => callback_guard s (fun s0 => (BodyOutcome.panicked, s0))
  | .sample_rate _ => callback_guard s (fun s0 => (BodyOutcome.panicked, s0))
  | .xrun => callback_guard s (fun s0 => (BodyOutcome.ret Control.Continue, s0))

/-- A sequence of callback deliveries, threading the shared state. -/
def run_trace (s : SystemState) (es : List JackEvent) : SystemState :=
  es.foldl (fun s1 e => (run_event s1 e).1) s

noncomputable section

/-- Rust `f32::abs`, NaN-propagating. -/
def fabs : FSample → FSample
  | .nan => .nan
  | .val x => .val |x|

/-- Rust `f32::max` with a non-NaN accumulator: when the second operand is
NaN the other operand is returned, otherwise the ordinary maximum.  The
peak meter's fold accumulator starts at the literal `0.0` and hence is
never NaN, so it is typed as a real number. -/
def rustMax (x : ℝ) : FSample → ℝ
  | .nan => x
  | .val y => max x y

/-- The batch maximum computed by `SamplePeakMeter::integrate`
(src/meters.rs lines 31-33): `data.map(abs).fold(0.0, |x, y| x.max(y))`. -/
def batch_abs_max (data : List FSample) : ℝ :=
  data.foldl (fun x y => rustMax x (fabs y)) 0

/-- Embedding of `SamplePeakMeter::new`: the stored peak starts at `0.0`. -/
def SamplePeakMeter.new : SamplePeakMeter :=
  ⟨0⟩

/-- Embedding of `SamplePeakMeter::integrate` (src/meters.rs lines 30-44):
compute the batch's absolute maximum, then run the compare-and-swap loop
`while max > old_max`.  With sequential (interference-free) semantics the
loop either installs the batch maximum (when it exceeds the stored peak)
or leaves the stored peak untouched. -/
def SamplePeakMeter.integrate (m : SamplePeakMeter) (data : List FSample) :
    SamplePeakMeter :=
  if batch_abs_max data > m.peak_sample then ⟨batch_abs_max data⟩ else m

/-- Decibel conversion `20.0 * x.log10()` as performed on stored meter
values, landing in `EReal`: the float convention `log10 0 = -inf` becomes
`⊥`.  The code only applies this to nonnegative stored values, so the
behaviour at negative arguments (float NaN) is out of range and the `≤ 0`
branch is never taken with `x < 0`. -/
def dbfs (x : ℝ) : EReal :=
  if x ≤ 0 then ⊥ else ((20 * Real.logb 10 x : ℝ) : EReal)

/-- Embedding of `SamplePeakMeter::read_and_reset` (src/meters.rs lines
48-50): `20.0 * peak_sample.swap(0.0).log10()`, i.e. return the decibel
conversion of the pre-swap value and leave the stored peak at `0`. -/
def SamplePeakMeter.read_and_reset (m : SamplePeakMeter) :
    EReal × SamplePeakMeter :=
  (dbfs m.peak_sample, ⟨0⟩)

/-- The time constant of `VUMeter::vu_weight` (src/meters.rs line 110):
`tau = -RISE_TIME / RISE_PRECISION.ln()` with `RISE_TIME = 0.3` and
`RISE_PRECISION = 0.01`. -/
def vu_tau : ℝ :=
  -(0.3) / Real.log 0.01

/-- Embedding of `VUMeter::vu_weight` (src/meters.rs lines 86-113):
`(-dt / tau).exp()` with `dt = 1 / sampling_rate`. -/
def vu_weight (sampling_rate : ℕ) : ℝ :=
  Real.exp (-(1 / (sampling_rate : ℝ)) / vu_tau)

/-- Embedding of `VUMeter::new`: zero stored loudness, weight derived from
the sampling rate. -/
def VUMeter.new (sampling_rate : ℕ) : VUMeter :=
  ⟨0, DBMeter.vu_weight sampling_rate⟩

/-- Embedding of `VUMeter::update_sampling_rate` (src/meters.rs lines
117-119): relaxed store of the freshly computed weight. -/
def VUMeter.update_sampling_rate (m : VUMeter) (sampling_rate : ℕ) :
    VUMeter :=
  { m with vu_weight := DBMeter.vu_weight sampling_rate }

/-- One fold attempt of `VUMeter::integrate` (src/meters.rs lines 132-137):
`data.map(|spl| spl.abs() * PI/2).fold(old_vu, |vu, spl| spl + (vu - spl) * w)`
with a single weight snapshot `w` for the whole batch. -/
def vu_fold (w : ℝ) (old_vu : ℝ) (data : List ℝ) : ℝ :=
  (data.map (fun spl => |spl| * (Real.pi / 2))).foldl
    (fun vu spl => spl + (vu - spl) * w) old_vu

/-- Embedding of the compare-and-swap retry loop of `VUMeter::integrate`
(src/meters.rs lines 128-145) under an explicit interference schedule.
`sched` lists, for each failed compare-and-swap, the weight loaded at the
start of that iteration and the stored value observed at the failure;
`wlast` is the weight loaded at the start of the final (successful)
iteration.  The result is the value the successful compare-and-swap
installs. -/
def vu_integrate_loop (data : List ℝ) : ℝ → List (ℝ × ℝ) → ℝ → ℝ
  | old_vu, [], wlast => vu_fold wlast old_vu data
  | _, (_, observed) :: rest, wlast => vu_integrate_loop data observed rest wlast

/-- Sequential (interference-free) semantics of `VUMeter::integrate`: the
first compare-and-swap succeeds and installs the batch fold. -/
def VUMeter.integrate (m : VUMeter) (data : List ℝ) : VUMeter :=
  { m with vu_sample := vu_fold m.vu_weight m.vu_sample data }

/-- Embedding of `VUMeter::read` (src/meters.rs lines 149-151):
`20.0 * vu_sample.load().log10()`. -/
def VUMeter.read (m : VUMeter) : EReal :=
  dbfs m.vu_sample

/-- The per-batch update the spec prescribes for the Loudness Meter
(modelled from the spec, for comparison with `vu_fold`): starting from an
accumulator, apply `new = corrected_sample + (acc - corrected_sample) *
decay_weight` to each sample, with `corrected_sample = (pi/2) * |sample|`. -/
def spec_vu_update (w corrected acc : ℝ) : ℝ :=
  corrected + (acc - corrected) * w

/-- Whole-batch fold of `spec_vu_update` (modelled from the spec's words). -/
def spec_batch_fold (w : ℝ) (start : ℝ) (data : List ℝ) : ℝ :=
  data.foldl (fun acc spl => spec_vu_update w (|spl| * (Real.pi / 2)) acc) start

/-- Construction of the shared state (src/jack.rs lines 106-110 together
with the meters' constructors): the alive flag starts `true`, `next_time`
starts at the JACK time `t` observed at construction. -/
def jack_state_new (t : ℕ) (rate : ℕ) : SystemState :=
  ⟨true, t, SamplePeakMeter.new, VUMeter.new rate⟩

end

/-- A dead state is left untouched by every callback: the guard's first
check returns `Quit` before any body runs. -/
lemma run_event_dead (s : SystemState) (e : JackEvent) (h : s.alive = false) :
    (run_event s e).1 = s := by
  cases e <;> simp [run_event, process, callback_guard, is_alive, h]

/-- C2: for every wrapped operation that panics or returns `Quit`,
`callback_guard` returns `Quit` and leaves the alive flag `false`; the
guard being a total function models that the abnormal termination never
propagates past its frame. -/
theorem callback_guard_contains_abnormal (s : SystemState)
    (body : SystemState → BodyOutcome × SystemState)
    (habn : (body s).1 = BodyOutcome.panicked
      ∨ (body s).1 = BodyOutcome.ret Control.Quit) :
    (callback_guard s body).2.1 = Control.Quit
    ∧ (callback_guard s body).1.alive = false := by
  rcases Bool.eq_false_or_eq_true s.alive with ht | hf
  · rcases habn with h | h <;>
      exact ⟨by simp [callback_guard, is_alive, ht, h, mark_dead],
        by simp [callback_guard, is_alive, ht, h, mark_dead]⟩
  · constructor <;> simp [callback_guard, is_alive, hf]

/-- Witness for C2 at a concrete alive state and a panicking body. -/
theorem callback_guard_contains_abnormal_witness :
    (callback_guard ⟨true, 0, ⟨0⟩, ⟨0, 1⟩⟩
      (fun s0 => (BodyOutcome.panicked, s0))).2.1 = Control.Quit
    ∧ (callback_guard ⟨true, 0, ⟨0⟩, ⟨0, 1⟩⟩
      (fun s0 => (BodyOutcome.panicked, s0))).1.alive = false :=
  callback_guard_contains_abnormal _ _ (Or.inl rfl)

/-- C3: if the alive flag is already `false` when `callback_guard` is
invoked, the guard returns `Quit`, leaves the state untouched, and the
wrapped operation is executed zero times. -/
theorem callback_guard_dead_skips_body (s : SystemState)
    (body : SystemState → BodyOutcome × SystemState)
    (hdead : s.alive = false) :
    callback_guard s body = (s, Control.Quit, 0) := by
  simp [callback_guard, is_alive, hdead]

/-- Witness for C3 at a concrete dead state. -/
theorem callback_guard_dead_skips_body_witness :
    callback_guard ⟨false, 3, ⟨0⟩, ⟨0, 1⟩⟩
      (fun s0 => (BodyOutcome.ret Control.Continue, s0))
    = (⟨false, 3, ⟨0⟩, ⟨0, 1⟩⟩, Control.Quit, 0) :=
  callback_guard_dead_skips_body _ _ rfl

/-- C5: the alive flag starts `true` at construction, no callback ever
turns it back from `false` to `true`, and once `false` it stays `false`
over every subsequent trace of callbacks. -/
theorem alive_flag_monotonic_sticky :
    (∀ t rate : ℕ, (jack_state_new t rate).alive = true)
    ∧ (∀ (s : SystemState) (e : JackEvent),
        (run_event s e).1.alive = true → s.alive = true)
    ∧ (∀ (s : SystemState) (es : List JackEvent),
        s.alive = false → (run_trace s es).alive = false) := by
  have hstep : ∀ (s : SystemState) (e : JackEvent),
      s.alive = false → (run_event s e).1.alive = false := by
    intro s e h
    rw [run_event_dead s e h]
    exact h
  refine ⟨fun t rate => rfl, ?_, ?_⟩
  · intro s e h
    rcases Bool.eq_false_or_eq_true s.alive with ht | hf
    · exact ht
    · rw [run_event_dead s e hf] at h
      exact h
  · intro s es h
    induction es generalizing s with
    | nil => exact h
    | cons e es ih =>
      have hcons : run_trace s (e :: es) = run_trace (run_event s e).1 es := rfl
      rw [hcons]
      exact ih _ (hstep s e h)

/-- Witness for C5 at a concrete dead state and trace. -/
theorem alive_flag_monotonic_sticky_witness :
    (run_trace ⟨false, 0, ⟨0⟩, ⟨0, 1⟩⟩
      [JackEvent.shutdown, JackEvent.xrun]).alive = false :=
  alive_flag_monotonic_sticky.2.2 _ _ rfl

/-- C8: on an alive instance, `buffer_size` and `sample_rate` hooks hit
`unimplemented!()`, so the guard converts the panic into `Quit` and the
alive flag transitions to `false`, for every argument. -/
theorem reconfiguration_hooks_fatal (s : SystemState) (n m : ℕ)
    (halive : s.alive = true) :
    (run_event s (JackEvent.buffer_size n)).2.1 = Control.Quit
    ∧ (run_event s (JackEvent.buffer_size n)).1.alive = false
    ∧ (run_event s (JackEvent.sample_rate m)).2.1 = Control.Quit
    ∧ (run_event s (JackEvent.sample_rate m)).1.alive = false := by
  refine ⟨?_, ?_, ?_, ?_⟩ <;>
    simp [run_event, callback_guard, is_alive, halive, mark_dead]

/-- Witness for C8 at a concrete alive state. -/
theorem reconfiguration_hooks_fatal_witness :
    (run_event ⟨true, 0, ⟨0⟩, ⟨0, 1⟩⟩ (JackEvent.buffer_size 64)).2.1 = Control.Quit
    ∧ (run_event ⟨true, 0, ⟨0⟩, ⟨0, 1⟩⟩ (JackEvent.buffer_size 64)).1.alive = false
    ∧ (run_event ⟨true, 0, ⟨0⟩, ⟨0, 1⟩⟩ (JackEvent.sample_rate 48000)).2.1 = Control.Quit
    ∧ (run_event ⟨true, 0, ⟨0⟩, ⟨0, 1⟩⟩ (JackEvent.sample_rate 48000)).1.alive = false :=
  reconfiguration_hooks_fatal _ 64 48000 rfl

/-- The accumulator of the peak fold never decreases along the fold. -/
lemma le_foldl_absmax (l : List FSample) (a : ℝ) :
    a ≤ l.foldl (fun x y => rustMax x (fabs y)) a := by
  induction l generalizing a with
  | nil => exact le_rfl
  | cons s l ih =>
    have h1 : a ≤ rustMax a (fabs s) := by
      cases s with
      | nan => simp [fabs, rustMax]
      | val x => simp [fabs, rustMax, le_max_left]
    simp only [List.foldl_cons]
    exact le_trans h1 (ih _)

/-- The batch maximum is nonnegative (the fold starts at `0.0`). -/
lemma batch_abs_max_nonneg (l : List FSample) : 0 ≤ batch_abs_max l :=
  le_foldl_absmax l 0

/-- The accumulator stays nonnegative across one fold step. -/
lemma rustMax_fabs_nonneg (a : ℝ) (s : FSample) (ha : 0 ≤ a) :
    0 ≤ rustMax a (fabs s) := by
  cases s with
  | nan => simpa [fabs, rustMax] using ha
  | val x =>
    simp only [fabs, rustMax]
    exact le_max_of_le_left ha

/-- Starting the peak fold from a nonnegative accumulator is the same as
taking the maximum of that accumulator with the batch maximum. -/
lemma foldl_absmax_start (l : List FSample) (a : ℝ) (ha : 0 ≤ a) :
    l.foldl (fun x y => rustMax x (fabs y)) a = max a (batch_abs_max l) := by
  induction l generalizing a with
  | nil =>
    simp only [List.foldl_nil, batch_abs_max]
    rw [max_eq_left ha]
  | cons s l ih =>
    have h0 : (0 : ℝ) ≤ rustMax 0 (fabs s) := rustMax_fabs_nonneg 0 s le_rfl
    have hA : 0 ≤ rustMax a (fabs s) := rustMax_fabs_nonneg a s ha
    have hbam : batch_abs_max (s :: l)
        = max (rustMax 0 (fabs s)) (batch_abs_max l) := by
      simp only [batch_abs_max, List.foldl_cons]
      exact ih _ h0
    simp only [List.foldl_cons]
    rw [ih _ hA, hbam]
    cases s with
    | nan =>
      simp [rustMax, fabs, max_eq_right (batch_abs_max_nonneg l)]
    | val x =>
      simp only [rustMax, fabs]
      rw [max_eq_right (abs_nonneg x), max_assoc]

/-- Closed form for a single `integrate`: the stored peak becomes the
maximum of the previous peak and the batch maximum. -/
lemma integrate_eq (m : SamplePeakMeter) (data : List FSample) :
    m.integrate data = ⟨max m.peak_sample (batch_abs_max data)⟩ := by
  unfold SamplePeakMeter.integrate
  by_cases h : batch_abs_max data > m.peak_sample
  · rw [if_pos h, max_eq_right (le_of_lt h)]
  · rw [if_neg h, max_eq_left (not_lt.mp h)]

/-- The batch maximum of a concatenation merges by `max`. -/
lemma batch_abs_max_append (l1 l2 : List FSample) :
    batch_abs_max (l1 ++ l2)
      = max (batch_abs_max l1) (batch_abs_max l2) := by
  simp only [batch_abs_max, List.foldl_append]
  exact foldl_absmax_start _ _ (batch_abs_max_nonneg l1)

/-- Unfolding the batch maximum over a cons. -/
lemma bam_cons (s : FSample) (l : List FSample) :
    batch_abs_max (s :: l)
      = max (rustMax 0 (fabs s)) (batch_abs_max l) := by
  have h1 : batch_abs_max (s :: l)
      = List.foldl (fun x y => rustMax x (fabs y)) (rustMax 0 (fabs s)) l := rfl
  rw [h1, foldl_absmax_start _ _ (rustMax_fabs_nonneg 0 s le_rfl)]

/-- Iterating `integrate` over a sequence of batches from a nonnegative
stored peak yields the maximum of that peak with the batch maximum of the
concatenation of all batches. -/
lemma peak_run (bs : List (List FSample)) (p : ℝ) (hp : 0 ≤ p) :
    (bs.foldl (fun (m : SamplePeakMeter) b => m.integrate b) ⟨p⟩).peak_sample
      = max p (batch_abs_max bs.flatten) := by
  induction bs generalizing p with
  | nil =>
    simp only [List.foldl_nil, List.flatten_nil]
    have hz : batch_abs_max [] = 0 := rfl
    rw [hz, max_eq_left hp]
  | cons b bs ih =>
    rw [List.foldl_cons, integrate_eq]
    rw [ih _ (le_max_of_le_left hp)]
    have hjoin : (b :: bs).flatten = b ++ bs.flatten := by simp
    rw [hjoin, batch_abs_max_append, max_assoc]

/-- Unfolding the batch maximum over a cons of ordinary real samples. -/
lemma bam_cons_real (a : ℝ) (l : List ℝ) :
    batch_abs_max ((a :: l).map FSample.val)
      = max |a| (batch_abs_max (l.map FSample.val)) := by
  rw [List.map_cons, bam_cons]
  have hseed : rustMax 0 (fabs (FSample.val a)) = max 0 |a| := rfl
  rw [hseed, max_eq_right (abs_nonneg a)]

/-- Every sample's absolute value is bounded by the batch maximum. -/
lemma mem_le_batch_abs_max (l : List ℝ) (x : ℝ) (hx : x ∈ l) :
    |x| ≤ batch_abs_max (l.map FSample.val) := by
  induction l with
  | nil => cases hx
  | cons a l ih =>
    rw [bam_cons_real]
    rcases List.mem_cons.mp hx with rfl | hmem
    · exact le_max_left _ _
    · exact le_max_of_le_right (ih hmem)

/-- On a nonempty list of ordinary real samples the batch maximum is
attained by some sample's absolute value. -/
lemma batch_abs_max_attained (l : List ℝ) (hne : l ≠ []) :
    ∃ x ∈ l, batch_abs_max (l.map FSample.val) = |x| := by
  induction l with
  | nil => exact absurd rfl hne
  | cons a l ih =>
    rcases le_total (batch_abs_max (l.map FSample.val)) |a| with hle | hle
    · exact ⟨a, List.mem_cons_self a l, by rw [bam_cons_real, max_eq_left hle]⟩
    · by_cases hl : l = []
      · subst hl
        refine ⟨a, List.mem_cons_self a [], ?_⟩
        rw [bam_cons_real]
        simp only [List.map_nil]
        have hz : batch_abs_max [] = 0 := rfl
        rw [hz, max_eq_left (abs_nonneg a)]
      · obtain ⟨x, hxl, hbx⟩ := ih hl
        exact ⟨x, List.mem_cons_of_mem a hxl,
          by rw [bam_cons_real, max_eq_right hle, hbx]⟩

/-- C4: integrating any finite sequence of sample batches from a fresh
peak meter and then calling `read_and_reset` returns the decibel value of
the batch maximum over the union of all samples (which bounds every sample
and, for a nonempty union, is attained by one); afterwards the stored peak
is `0`, so a second `read_and_reset` returns `⊥` (negative infinity). -/
theorem peak_read_and_reset_max_over_union (batches : List (List ℝ)) :
    (((batches.map (fun b => b.map FSample.val)).foldl
        (fun m b => m.integrate b) SamplePeakMeter.new).read_and_reset).1
      = dbfs (batch_abs_max (batches.flatten.map FSample.val))
    ∧ (∀ x ∈ batches.flatten,
        |x| ≤ batch_abs_max (batches.flatten.map FSample.val))
    ∧ (batches.flatten ≠ [] →
        ∃ x ∈ batches.flatten,
          batch_abs_max (batches.flatten.map FSample.val) = |x|)
    ∧ (((batches.map (fun b => b.map FSample.val)).foldl
        (fun m b => m.integrate b) SamplePeakMeter.new).read_and_reset).2.peak_sample
      = 0
    ∧ ((((batches.map (fun b => b.map FSample.val)).foldl
        (fun m b => m.integrate b) SamplePeakMeter.new).read_and_reset).2.read_and_reset).1
      = ⊥ := by
  have hjoin : (batches.map (fun b => b.map FSample.val)).flatten
      = batches.flatten.map FSample.val := by
    simp [List.map_flatten]
  have hfinal : ((batches.map (fun b => b.map FSample.val)).foldl
      (fun m b => m.integrate b) SamplePeakMeter.new).peak_sample
      = batch_abs_max (batches.flatten.map FSample.val) := by
    have h0 : SamplePeakMeter.new = (⟨0⟩ : SamplePeakMeter) := rfl
    rw [h0, peak_run _ 0 le_rfl, hjoin,
      max_eq_right (batch_abs_max_nonneg _)]
  refine ⟨?_, fun x hx => mem_le_batch_abs_max _ x hx,
    batch_abs_max_attained _, rfl, ?_⟩
  · have hread : (((batches.map (fun b => b.map FSample.val)).foldl
        (fun m b => m.integrate b) SamplePeakMeter.new).read_and_reset).1
        = dbfs (((batches.map (fun b => b.map FSample.val)).foldl
            (fun m b => m.integrate b) SamplePeakMeter.new).peak_sample) := rfl
    rw [hread, hfinal]
  · show dbfs 0 = ⊥
    simp [dbfs]

/-- Witness for C4 at the concrete batch sequence `[[1]]`. -/
theorem peak_read_and_reset_max_over_union_witness :
    ∃ x ∈ ([[(1 : ℝ)]] : List (List ℝ)).flatten,
      batch_abs_max ((([[(1 : ℝ)]] : List (List ℝ)).flatten).map FSample.val) = |x| :=
  (peak_read_and_reset_max_over_union [[1]]).2.2.1 (by simp)

/-- Filtering out NaN samples does not change the peak fold: the fold step
returns the accumulator unchanged on a NaN operand. -/
lemma foldl_absmax_filter (l : List FSample) (a : ℝ) :
    (l.filter (fun s => s.isVal)).foldl (fun x y => rustMax x (fabs y)) a
      = l.foldl (fun x y => rustMax x (fabs y)) a := by
  induction l generalizing a with
  | nil => rfl
  | cons s l ih =>
    cases s with
    | nan =>
      have hfil : List.filter (fun s => s.isVal) (FSample.nan :: l)
          = List.filter (fun s => s.isVal) l := by
        simp [List.filter_cons, FSample.isVal]
      have hstep : List.foldl (fun x y => rustMax x (fabs y)) a
            (FSample.nan :: l)
          = List.foldl (fun x y => rustMax x (fabs y)) a l := rfl
      rw [hfil, hstep]
      exact ih a
    | val x =>
      have hfil : List.filter (fun s => s.isVal) (FSample.val x :: l)
          = FSample.val x :: List.filter (fun s => s.isVal) l := by
        simp [List.filter_cons, FSample.isVal]
      rw [hfil, List.foldl_cons, List.foldl_cons]
      exact ih _

/-- C10: `SamplePeakMeter::integrate` treats NaN samples as absent: the
result of integrating a batch equals the result of integrating the batch
with all NaN samples removed, and a batch of only NaN samples (or an empty
batch) leaves a nonnegative stored peak unchanged. -/
theorem peak_integrate_ignores_nan (p : ℝ) (hp : 0 ≤ p) (data : List FSample) :
    SamplePeakMeter.integrate ⟨p⟩ data
      = SamplePeakMeter.integrate ⟨p⟩ (data.filter (fun s => s.isVal))
    ∧ ((∀ s ∈ data, s = FSample.nan) →
        SamplePeakMeter.integrate ⟨p⟩ data = ⟨p⟩) := by
  have hfeq : batch_abs_max (data.filter (fun s => s.isVal))
      = batch_abs_max data := foldl_absmax_filter data 0
  constructor
  · simp only [SamplePeakMeter.integrate, hfeq]
  · intro hnan
    have hz : batch_abs_max data = 0 := by
      rw [← hfeq]
      have hfil : data.filter (fun s => s.isVal) = [] := by
        rw [List.filter_eq_nil_iff]
        intro s hs
        rw [hnan s hs]
        simp [FSample.isVal]
      rw [hfil]
      rfl
    unfold SamplePeakMeter.integrate
    rw [hz, if_neg (not_lt.mpr hp)]

/-- Witness for C10 at a nonnegative stored peak and an all-NaN batch. -/
theorem peak_integrate_ignores_nan_witness :
    (0 : ℝ) ≤ 0
    ∧ SamplePeakMeter.integrate ⟨0⟩ [FSample.nan] = (⟨0⟩ : SamplePeakMeter) :=
  ⟨le_rfl, (peak_integrate_ignores_nan 0 le_rfl [FSample.nan]).2
    (by intro s hs; simpa using hs)⟩

/-- C1 (divergence between code and spec): at a concrete alive state whose
cycle delivers the sample `1.0`, the `process` callback returns `Continue`
and stores the cycle-end time, but leaves both meters exactly as they
were, whereas forwarding the batch to `SamplePeakMeter::integrate` (as the
spec prescribes) would have raised the stored peak to `1`. -/
theorem process_discards_input_without_metering :
    (process ⟨true, 0, ⟨0⟩, ⟨0, 1⟩⟩ ⟨[FSample.val 1], 7⟩).2.1 = Control.Continue
    ∧ (process ⟨true, 0, ⟨0⟩, ⟨0, 1⟩⟩ ⟨[FSample.val 1], 7⟩).1.next_time = 7
    ∧ (process ⟨true, 0, ⟨0⟩, ⟨0, 1⟩⟩ ⟨[FSample.val 1], 7⟩).1.peak
        = (⟨0⟩ : SamplePeakMeter)
    ∧ (process ⟨true, 0, ⟨0⟩, ⟨0, 1⟩⟩ ⟨[FSample.val 1], 7⟩).1.vu
        = (⟨0, 1⟩ : VUMeter)
    ∧ (SamplePeakMeter.integrate ⟨0⟩ [FSample.val 1]).peak_sample = 1 := by
  have hb : batch_abs_max [FSample.val 1] = 1 := by
    simp [batch_abs_max, rustMax, fabs]
  refine ⟨rfl, rfl, rfl, rfl, ?_⟩
  simp only [SamplePeakMeter.integrate, hb]
  rw [if_pos (by norm_num : (1 : ℝ) > 0)]

/-- C6: under any interference schedule, the value installed by the
compare-and-swap loop of `VUMeter::integrate` is exactly one whole-batch
fold of the spec's per-sample update `new = corrected + (acc - corrected)
* decay_weight` (with `corrected = (pi/2) * |sample|`), performed with the
single decay-weight snapshot of the final iteration and started from the
most recently observed stored value. -/
theorem vu_integrate_loop_restarts_whole_fold (data : List ℝ)
    (old_vu wlast : ℝ) (sched : List (ℝ × ℝ)) :
    vu_integrate_loop data old_vu sched wlast
      = spec_batch_fold wlast ((sched.map Prod.snd).getLastD old_vu) data := by
  induction sched generalizing old_vu with
  | nil =>
    simp only [vu_integrate_loop, List.map_nil, List.getLastD_nil]
    simp only [vu_fold, spec_batch_fold, spec_vu_update, List.foldl_map]
  | cons pr rest ih =>
    obtain ⟨w, observed⟩ := pr
    simp only [vu_integrate_loop, List.map_cons, List.getLastD_cons]
    exact ih observed

/-- C9: `update_sampling_rate` changes only the stored decay weight: the
accumulated smoothed value is untouched, and a subsequent `integrate`
folds from the old accumulated value using the new weight. -/
theorem update_sampling_rate_only_changes_weight (m : VUMeter) (rate : ℕ)
    (data : List ℝ) :
    (m.update_sampling_rate rate).vu_sample = m.vu_sample
    ∧ (m.update_sampling_rate rate).vu_weight = vu_weight rate
    ∧ ((m.update_sampling_rate rate).integrate data).vu_sample
        = vu_fold (vu_weight rate) m.vu_sample data :=
  ⟨rfl, rfl, rfl⟩

/-- The time constant `tau` is positive (both `-0.3` and `ln 0.01` are
negative). -/
lemma vu_tau_pos : 0 < vu_tau := by
  have hlog : Real.log 0.01 < 0 :=
    Real.log_neg (by norm_num) (by norm_num)
  have hnum : (-(0.3) : ℝ) < 0 := by norm_num
  exact div_pos_of_neg_of_neg hnum hlog

/-- C7: for every sampling rate above zero, the decay weight lies strictly
between `0` and `1`, is strictly monotone in the sampling rate, and tends
to `1` as the sampling rate grows. -/
theorem vu_weight_in_unit_interval_mono :
    (∀ r : ℕ, 0 < r → 0 < vu_weight r ∧ vu_weight r < 1)
    ∧ (∀ r1 r2 : ℕ, 0 < r1 → r1 < r2 → vu_weight r1 < vu_weight r2)
    ∧ Filter.Tendsto (fun r : ℕ => vu_weight r) Filter.atTop (nhds 1) := by
  refine ⟨?_, ?_, ?_⟩
  · intro r hr
    refine ⟨Real.exp_pos _, ?_⟩
    have hrpos : (0 : ℝ) < 1 / (r : ℝ) := by
      have hc : (0 : ℝ) < (r : ℝ) := by exact_mod_cast hr
      positivity
    have hx : -(1 / (r : ℝ)) / vu_tau < 0 :=
      div_neg_of_neg_of_pos (neg_lt_zero.mpr hrpos) vu_tau_pos
    exact Real.exp_lt_one_iff.mpr hx
  · intro r1 r2 h1 h12
    have hr1 : (0 : ℝ) < (r1 : ℝ) := by exact_mod_cast h1
    have hlt : (r1 : ℝ) < (r2 : ℝ) := by exact_mod_cast h12
    have hneg : -(1 / (r1 : ℝ)) < -(1 / (r2 : ℝ)) :=
      neg_lt_neg (one_div_lt_one_div_of_lt hr1 hlt)
    have hdiv : -(1 / (r1 : ℝ)) / vu_tau < -(1 / (r2 : ℝ)) / vu_tau := by
      rw [div_eq_mul_inv, div_eq_mul_inv]
      exact mul_lt_mul_of_pos_right hneg (inv_pos.mpr vu_tau_pos)
    exact Real.exp_lt_exp.mpr hdiv
  · have h1 : Filter.Tendsto (fun r : ℕ => 1 / (r : ℝ))
        Filter.atTop (nhds 0) := tendsto_one_div_atTop_nhds_zero_nat
    have h2 : Filter.Tendsto (fun r : ℕ => -(1 / (r : ℝ)) / vu_tau)
        Filter.atTop (nhds 0) := by
      have h3 := (h1.neg).div_const vu_tau
      simpa using h3
    have h4 := (Real.continuous_exp.tendsto 0).comp h2
    simp only [Function.comp] at h4
    rw [Real.exp_zero] at h4
    exact h4

/-- Witness for C7 at the concrete sampling rates 48000 and 96000. -/
theorem vu_weight_in_unit_interval_mono_witness :
    (0 < vu_weight 48000 ∧ vu_weight 48000 < 1)
    ∧ vu_weight 48000 < vu_weight 96000 :=
  ⟨vu_weight_in_unit_interval_mono.1 48000 (by norm_num),
    vu_weight_in_unit_interval_mono.2.1 48000 96000 (by norm_num) (by norm_num)⟩

end DBMeter
